import Mathlib

/-
Verification of the realtime chat client state logic of this repository
(Next.js frontend of fastapi_next).  The definitions below are shallow
embeddings of the TypeScript source: the socket event handlers and view
computations of the EnhancedChat components (src/unnamed/part_013,
src/unnamed/part_014) and the presence handlers of
src/frontend/src/contexts/SocketContext.tsx.

Modelling conventions:
  - A JS object field that is optional (may be undefined) becomes Option.
  - A boolean field that a handler omits when writing an object literal is
    modelled as false, and an omitted string field as none: every reader in
    the source treats the absent field as falsy (status.read, status.delivered,
    status.read_at), so this is observationally faithful.
  - A Record<string, T> becomes an association list with unique keys;
    JS property assignment replaces the value in place when the key exists
    and appends the key otherwise.
  - JS truthiness of an optional string (used in conditions such as
    data.receiver_id && ...) is: present and not the empty string.
-/

namespace FastapiNext

/-- Per-recipient delivery status entry.  Declared in the source as
delivery_status entries of shape delivered, read, read_at (part_013 line 858).
The message_delivered handler additionally writes a delivered_at field through
an any-cast (part_013 line 1505), so the embedding carries it. -/
structure DeliveryEntry where
  delivered : Bool
  read : Bool
  read_at : Option String
  delivered_at : Option String
deriving Repr, DecidableEq

/-- Association-list form of the delivery_status record of a message. -/
abbrev DStatus := List (String × DeliveryEntry)

/-- JS property assignment ds[k] = v on a string-keyed record: replace the
value in place when the key is present, append the pair otherwise. -/
def setEntry : DStatus → String → DeliveryEntry → DStatus
  | [], k, v => [(k, v)]
  | p :: rest, k, v => if p.1 == k then (k, v) :: rest else p :: setEntry rest k v

/-- The Message interface of the EnhancedChat component (part_013 lines
840-861), restricted to the fields the verified handlers and views read. -/
structure Message where
  id : String
  sender_id : String
  receiver_id : Option String
  group_id : Option String
  group_chat_id : Option String
  content : String
  reply_to : Option String
  edited : Bool
  edited_at : Option String
  deleted : Bool
  delivery_status : Option DStatus
  created_at : String
  sender_name : Option String
deriving Repr, DecidableEq

/-- JS truthiness of an optional string value. -/
def strTruthy : Option String → Bool
  | none => false
  | some s => !(s == "")

/-- Payload of the messages_read socket event (part_013 line 1472). -/
structure MessagesReadData where
  receiver_id : Option String
  timestamp : Option String
deriving Repr, DecidableEq

/-- Payload of the message_delivered socket event (part_013 line 1499). -/
structure MessageDeliveredData where
  messageId : String
  receiver_id : Option String
  timestamp : Option String
deriving Repr, DecidableEq

/-- Per-message update of the messages_read handler (part_013 lines
1476-1483): for each message from the current user to the chat peer, the
delivery_status entry of the peer is replaced by an object literal with
delivered true, read true and read_at set to the event timestamp; the
literal carries no delivered_at field. -/
def messagesReadMsg (userId receiverId : String) (ts : Option String)
    (m : Message) : Message :=
  if m.sender_id == userId && m.receiver_id == some receiverId then
    { m with delivery_status := some (setEntry (m.delivery_status.getD []) receiverId
        { delivered := true, read := true, read_at := ts, delivered_at := none }) }
  else m

/-- The messages_read socket handler (part_013 lines 1472-1485). -/
def onMessagesRead (isGroup : Bool) (receiverId userId : String)
    (data : MessagesReadData) (msgs : List Message) : List Message :=
  if !isGroup && strTruthy data.receiver_id && data.receiver_id == some receiverId then
    msgs.map (messagesReadMsg userId receiverId data.timestamp)
  else msgs

/-- Per-message update of the message_delivered handler (part_013 lines
1501-1509): for the matching message id, the delivery_status entry of the
receiver is replaced by an object literal with delivered true and
delivered_at set; the literal carries no read and no read_at field, so a
previously recorded read flag is lost.  The source casts the possibly
undefined receiver_id to string; an undefined JS key stringifies. -/
def messageDeliveredMsg (data : MessageDeliveredData) (m : Message) : Message :=
  if m.id == data.messageId then
    { m with delivery_status := some (setEntry (m.delivery_status.getD [])
        (data.receiver_id.getD "undefined")
        { delivered := true, read := false, read_at := none,
          delivered_at := data.timestamp }) }
  else m

/-- The message_delivered socket handler (part_013 lines 1499-1510). -/
def onMessageDelivered (data : MessageDeliveredData) (msgs : List Message) :
    List Message :=
  msgs.map (messageDeliveredMsg data)

/-- Fan-out events emitted by the messages_read handler body: the source
handler only calls setMessages and contains no socket.emit call. -/
def onMessagesReadEmits (_ : MessagesReadData) : List String := []

/-- Fan-out events emitted by the message_delivered handler body: the source
handler only calls setMessages and contains no socket.emit call. -/
def onMessageDeliveredEmits (_ : MessageDeliveredData) : List String := []

/-- A concrete 1:1 message from user A to user B with no delivery status yet. -/
def msgAB : Message :=
  { id := "m1", sender_id := "A", receiver_id := some "B", group_id := none,
    group_chat_id := none, content := "hi", reply_to := none, edited := false,
    edited_at := none, deleted := false, delivery_status := none,
    created_at := "t0", sender_name := none }

/-- The message_deleted socket handler handleMessageDelete (part_013 lines
1416-1420, identical in part_014 lines 474-478): sets the deleted flag of
the matching message in place and leaves every other message unchanged.
The update object literal spreads the old message and overrides only
deleted, so content and all metadata are retained in state. -/
def handleMessageDelete (message_id : String) (msgs : List Message) :
    List Message :=
  msgs.map (fun msg =>
    if msg.id == message_id then { msg with deleted := true } else msg)

/-- Rendering outcome of the MessageBubble component for one message. -/
inductive Rendered where
  | deletedPlaceholder
  | bubble (content : String)
deriving Repr, DecidableEq

/-- MessageBubble body rendering (part_013 lines 996-1004, part_014 lines
149-157): a message whose deleted flag is set renders as the fixed
placeholder text and its content is not displayed; otherwise the content is
displayed. -/
def renderBubble (m : Message) : Rendered :=
  if m.deleted then .deletedPlaceholder else .bubble m.content

/-- The setMessages updater shared by the inbound message handlers
(part_013 lines 1437-1442, part_014 lines 435-441): if a message with the
same id is already in the list the list is returned unchanged, otherwise
the message is appended. -/
def appendIfNewId (prev : List Message) (message : Message) : List Message :=
  if prev.any (fun m => m.id == message.id) then prev else prev ++ [message]

/-- Scope-match test of the receive_message handler (part_013 lines
1432-1436). -/
def receiveMessageMatches (isGroup : Bool) (chatId receiverId userId : String)
    (message : Message) : Bool :=
  (isGroup && (message.group_id == some chatId ||
               message.group_chat_id == some chatId)) ||
  (!isGroup && ((message.sender_id == receiverId &&
                 message.receiver_id == some userId) ||
                (message.sender_id == userId &&
                 message.receiver_id == some receiverId)))

/-- The receive_message socket handler (part_013 lines 1431-1455),
restricted to its state update. -/
def handleReceiveMessage (isGroup : Bool) (chatId receiverId userId : String)
    (message : Message) (prev : List Message) : List Message :=
  if receiveMessageMatches isGroup chatId receiverId userId message then
    appendIfNewId prev message
  else prev

/-- Scope-match test of the new_message handler (part_014 lines 430-434). -/
def newMessageMatches (isGroup : Bool) (chatId receiverId userId : String)
    (message : Message) : Bool :=
  (isGroup && message.group_chat_id == some chatId) ||
  (!isGroup && ((message.sender_id == receiverId &&
                 message.receiver_id == some userId) ||
                (message.sender_id == userId &&
                 message.receiver_id == some receiverId)))

/-- The new_message socket handler (part_014 lines 429-466), restricted to
its state update. -/
def handleNewMessage (isGroup : Bool) (chatId receiverId userId : String)
    (message : Message) (prev : List Message) : List Message :=
  if newMessageMatches isGroup chatId receiverId userId message then
    appendIfNewId prev message
  else prev

/-- One inbound message event; the Bool selects which of the two handler
variants (receive_message of part_013, new_message of part_014) processes
it. -/
def applyInbound (isGroup : Bool) (chatId receiverId userId : String)
    (prev : List Message) (e : Bool × Message) : List Message :=
  if e.1 then handleReceiveMessage isGroup chatId receiverId userId e.2 prev
  else handleNewMessage isGroup chatId receiverId userId e.2 prev

/-- The deliveryStatus view computed by MessageBubble (part_013 lines
1006-1013, part_014 lines 162-168): for an own message with a delivery
status map, the per-recipient entry of the 1:1 receiver when the receiver id
is truthy and its entry is present; otherwise, for a group message, the
first entry of the raw per-recipient map whose read flag is set; undefined
otherwise. -/
def bubbleDeliveryStatus (isOwn : Bool) (m : Message) : Option DeliveryEntry :=
  if isOwn then
    match m.delivery_status with
    | none => none
    | some ds =>
      if strTruthy m.receiver_id && (ds.lookup (m.receiver_id.getD "")).isSome then
        ds.lookup (m.receiver_id.getD "")
      else if strTruthy m.group_chat_id then
        (ds.map Prod.snd).find? (fun status => status.read)
      else none
  else none

/-- The isRead indicator of MessageBubble (part_013 line 1014, part_014 line
169): the read flag of the computed deliveryStatus view, false when the view
is undefined.  Both source variants reduce to this on boolean entries. -/
def bubbleIsRead (isOwn : Bool) (m : Message) : Bool :=
  ((bubbleDeliveryStatus isOwn m).map (fun e => e.read)).getD false

/-- A raw per-recipient delivery map in which B has read and C has not. -/
def dsBC : DStatus :=
  [("B", { delivered := true, read := true, read_at := some "t1",
           delivered_at := none }),
   ("C", { delivered := true, read := false, read_at := none,
           delivered_at := none })]

/-- A group message of sender A carrying the raw map dsBC. -/
def msgGroupBC : Message :=
  { msgAB with receiver_id := none, group_chat_id := some "G",
               delivery_status := some dsBC }

/-- Modelled from the spec: resolveRecipients of the Room/Scope Router
(spec section 4.3) is server-side code of this repository that is not among
the provided sources; the cited frontend code (GroupMembersList handleAdd,
part_013 lines 46-56) only forwards raw member ids to the membership API.
A participant of a scope as the router sees it: a user id with its
organization id. -/
structure ScopeUser where
  uid : String
  orgId : String
deriving Repr, DecidableEq

/-- Modelled from the spec: a chat scope (1:1 pair or group) with its
organization and its resolved participant snapshot (spec section 3,
Chat Scope). -/
structure ChatScope where
  orgId : String
  participants : List ScopeUser
deriving Repr, DecidableEq

/-- Result of a recipient resolution: the recipient set and an optional
error. -/
structure Resolution where
  recipients : List ScopeUser
  error : Option String
deriving Repr, DecidableEq

/-- Modelled from the spec: resolveRecipients (spec section 4.3) returns the
member snapshot of the scope; the organization-isolation check makes a
resolution whose participants include a user of a different organization
fail closed with an error and an empty set, never a partial one. -/
def resolveRecipients (scope : ChatScope) : Resolution :=
  if scope.participants.all (fun u => u.orgId == scope.orgId) then
    { recipients := scope.participants, error := none }
  else
    { recipients := [], error := some "cross-organization scope rejected" }

/-- A scope of organization O1 whose participant snapshot contains a user of
a different organization O2. -/
def scopeCross : ChatScope :=
  { orgId := "O1", participants := [{ uid := "A", orgId := "O1" },
                                    { uid := "B", orgId := "O2" }] }

/-- A connection-lifecycle event of one device of a user, as handled by the
connect and disconnect handlers of SocketProvider
(src/frontend/src/contexts/SocketContext.tsx lines 148-168). -/
inductive ConnEvent where
  | connect
  | disconnect
deriving Repr, DecidableEq

/-- Per-user presence state across the devices of one user: the number of
live socket connections of that user, and the stored is_online flag as
written by the PUT /users/status/me calls of the two handlers. -/
structure PresenceState where
  count : Nat
  online : Bool
deriving Repr, DecidableEq

/-- One transition: the connect handler of any device sets is_online to
true; the disconnect handler of any device sets is_online to false
unconditionally, regardless of how many other connections of the same user
remain live (the source keeps no connection count). -/
def presenceStep (st : PresenceState) : ConnEvent → PresenceState
  | .connect => { count := st.count + 1, online := true }
  | .disconnect => { count := st.count - 1, online := false }

/-- Presence state after a sequence of connection events of the devices of
one user, starting from no connections and offline. -/
def presenceRun (es : List ConnEvent) : PresenceState :=
  es.foldl presenceStep { count := 0, online := false }

/-- Action list generated by the group_typing handler of part_013 (lines
1422-1428): each signal at time s sets the indicator immediately and
schedules a timeout that clears it at s + 3000; timeouts of earlier signals
are never cleared, so every scheduled clear fires. -/
def groupTypingActions (signals : List Nat) : List (Nat × Bool) :=
  signals.flatMap (fun s => [(s, true), (s + 3000, false)])

/-- The indicator value at time t under a set of timed actions: the action
with the greatest time not after t wins (a later-listed action wins a tie);
no applicable action means not typing. -/
def latestActionValue (acts : List (Nat × Bool)) (t : Nat) : Bool :=
  ((acts.foldl (fun best a =>
      if a.1 ≤ t then
        match best with
        | none => some a
        | some b => if b.1 ≤ a.1 then some a else some b
      else best) none).map Prod.snd).getD false

/-- Whether the group typing indicator of part_013 is shown at time t after
the given signal times. -/
def groupTypingVisible (signals : List Nat) (t : Nat) : Bool :=
  latestActionValue (groupTypingActions signals) t

/-- Timer state of the scoped typing indicator of part_014 (lines 386-413):
the typing flag and the expiry time of the single pending timeout
(typingTimeoutRef; a new signal clears the previous timeout before
scheduling its own). -/
structure TypingTimerState where
  typing : Bool
  expiry : Option Nat
deriving Repr, DecidableEq

/-- Processing one matching typing signal at time s in the scoped handler:
the indicator is set and the previous timeout, if any, is cleared and
replaced by one expiring at s + 3000. -/
def scopedTypingStep (_ : TypingTimerState) (s : Nat) : TypingTimerState :=
  { typing := true, expiry := some (s + 3000) }

/-- Whether the scoped typing indicator of part_014 is shown at time t: the
signals not after t are processed in order, and the single live timeout
fires when due, clearing the indicator. -/
def scopedTypingVisible (signals : List Nat) (t : Nat) : Bool :=
  let st := (signals.filter (fun s => decide (s ≤ t))).foldl scopedTypingStep
    { typing := false, expiry := none }
  match st.expiry with
  | none => st.typing
  | some e => decide (t < e)

/-- The per-keystroke typing emitter of part_013 (lines 1912-1928): on
every input change with a connected socket and a nonempty value a typing
signal is emitted immediately; there is no throttle.  A keystroke is a
time paired with whether the socket is connected and the value nonempty. -/
def perKeystrokeTypingEmits (keystrokes : List (Nat × Bool)) : List Nat :=
  (keystrokes.filter (fun k => k.2)).map Prod.fst

/-- Throttle state of the debounced typing emitter of part_014 (lines
668-711): the time of the last emit (lastTypingEmitRef, initially 0), the
pending trailing timeout with its fire time and the input-value
nonemptiness captured by its closure (emitTypingTimeoutRef), and the emit
times so far, most recent first. -/
structure ThrottleState where
  last : Nat
  pending : Option (Nat × Bool)
  emits : List Nat
deriving Repr, DecidableEq

/-- The pending trailing timeout fires when its time is due at or before t:
if the captured input value was nonempty it emits and updates the last-emit
time to the fire time, otherwise it only clears itself. -/
def throttleFire (st : ThrottleState) (t : Nat) : ThrottleState :=
  match st.pending with
  | some (p, w) =>
    if p ≤ t then
      if w then { last := p, pending := none, emits := p :: st.emits }
      else { st with pending := none }
    else st
  | none => st

/-- One keystroke at time t processed by the onChange emitter of part_014
(lines 668-711), after any due trailing timeout has fired: when more than
1000 ms have passed since the last emit, the signal is emitted immediately
and the last-emit time updated; otherwise a single trailing timeout is
scheduled at last + 1000 when none is pending, capturing the current
nonemptiness of the input value. -/
def throttleKeystroke (st : ThrottleState) (t : Nat) (preNonempty : Bool) :
    ThrottleState :=
  if (throttleFire st t).last + 1000 < t then
    { last := t, pending := none, emits := t :: (throttleFire st t).emits }
  else
    match (throttleFire st t).pending with
    | none => { throttleFire st t with
                pending := some ((throttleFire st t).last + 1000, preNonempty) }
    | some _ => throttleFire st t

/-- The throttle machine over a keystroke sequence from the initial state:
lastTypingEmitRef starts at 0, no pending timeout, no emits yet. -/
def throttleRun (keystrokes : List (Nat × Bool)) : ThrottleState :=
  keystrokes.foldl (fun st k => throttleKeystroke st k.1 k.2)
    { last := 0, pending := none, emits := [] }

/-- Invariant of the throttle machine: the last-emit time is the most
recent emit (or the initial 0), a pending trailing timeout always fires
exactly 1000 ms after the last emit, and consecutive emits are at least
1000 ms apart (emits are listed most recent first). -/
def ThrottleInv (st : ThrottleState) : Prop :=
  st.last = st.emits.head?.getD 0 ∧
  (∀ p w, st.pending = some (p, w) → p = st.last + 1000) ∧
  List.Chain' (fun a b => b + 1000 ≤ a) st.emits

/-- The message msgAB after recipient B has been recorded as having read it. -/
def msgABRead : Message :=
  { msgAB with delivery_status :=
      (some [("B", { delivered := true, read := true, read_at := some "t1",
                     delivered_at := none })]) }

/-- Key-replacement lemma: writing the same entry twice is the same as
writing it once. -/
theorem setEntry_idem (ds : DStatus) (k : String) (v : DeliveryEntry) :
    setEntry (setEntry ds k v) k v = setEntry ds k v := by
  induction ds with
  | nil => simp [setEntry]
  | cons p rest ih =>
    by_cases h : (p.1 == k) = true
    · simp [setEntry, h]
    · simp [setEntry, h, ih]

/-- Lookup after a key replacement. -/
theorem lookup_setEntry (ds : DStatus) (k k' : String) (v : DeliveryEntry) :
    (setEntry ds k v).lookup k' =
      if (k' == k) = true then some v else ds.lookup k' := by
  induction ds with
  | nil => cases hbe : (k' == k) <;> simp [setEntry, List.lookup, hbe]
  | cons p rest ih =>
    by_cases h : (p.1 == k) = true
    · have hp : p.1 = k := by simpa using h
      subst hp
      cases hbe : (k' == p.1) <;> simp [setEntry, List.lookup, hbe]
    · by_cases hbe : (k' == p.1) = true
      · have hk' : k' = p.1 := by simpa using hbe
        have hkk : (k' == k) = false := by
          subst hk'
          simpa using h
        simp [setEntry, h, List.lookup, hbe, hkk]
      · simp [setEntry, h, List.lookup, hbe, ih]

/-- Applying the per-message messages_read update twice equals applying it
once. -/
theorem messagesReadMsg_idem (uid rid : String) (ts : Option String)
    (m : Message) :
    messagesReadMsg uid rid ts (messagesReadMsg uid rid ts m) =
      messagesReadMsg uid rid ts m := by
  by_cases h : (m.sender_id == uid && m.receiver_id == some rid) = true
  · simp [messagesReadMsg, h, setEntry_idem]
  · simp [messagesReadMsg, h]

/-- Applying the per-message message_delivered update twice equals applying
it once. -/
theorem messageDeliveredMsg_idem (d : MessageDeliveredData) (m : Message) :
    messageDeliveredMsg d (messageDeliveredMsg d m) = messageDeliveredMsg d m := by
  by_cases h : (m.id == d.messageId) = true
  · simp [messageDeliveredMsg, h, setEntry_idem]
  · simp [messageDeliveredMsg, h]

/-- C1.  Delivery-status monotonicity fails in the source exactly at the
claimed point: a message_delivered event that arrives after the read
acknowledgment overwrites the per-recipient entry with an object literal
holding only delivered and delivered_at (part_013 line 1505, written through
an any-cast that bypasses the declared entry type, which requires a read
field), so the previously recorded read flag is cleared.  This theorem
evaluates the two source handlers at the failing input: after messages_read
the entry of recipient B has read true; after the subsequent
message_delivered it has read false and the read timestamp is gone. -/
theorem c1_delivered_ack_after_read_clears_read_flag :
    (((onMessagesRead false "B" "A" ⟨some "B", some "t1"⟩ [msgAB]).head?.bind
        (·.delivery_status)).getD []).lookup "B" =
      some { delivered := true, read := true, read_at := some "t1",
             delivered_at := none } ∧
    (((onMessageDelivered ⟨"m1", some "B", some "t2"⟩
        (onMessagesRead false "B" "A" ⟨some "B", some "t1"⟩ [msgAB])).head?.bind
        (·.delivery_status)).getD []).lookup "B" =
      some { delivered := true, read := false, read_at := none,
             delivered_at := some "t2" } := by
  decide

/-- C5.  Idempotence of acknowledgment handlers: applying the same
messages_read or message_delivered event twice with an identical payload
yields the same message-list state as applying it once, and the two handler
bodies contain no socket.emit call, so the fan-out of a double application
is at most one event. -/
theorem c5_ack_handlers_idempotent (iG : Bool) (rid uid : String)
    (d : MessagesReadData) (d2 : MessageDeliveredData) (msgs : List Message) :
    onMessagesRead iG rid uid d (onMessagesRead iG rid uid d msgs) =
      onMessagesRead iG rid uid d msgs ∧
    onMessageDelivered d2 (onMessageDelivered d2 msgs) =
      onMessageDelivered d2 msgs ∧
    (onMessagesReadEmits d ++ onMessagesReadEmits d).length ≤ 1 ∧
    (onMessageDeliveredEmits d2 ++ onMessageDeliveredEmits d2).length ≤ 1 := by
  refine ⟨?_, ?_, by simp [onMessagesReadEmits], by simp [onMessageDeliveredEmits]⟩
  · by_cases h : (!iG && strTruthy d.receiver_id &&
        d.receiver_id == some rid) = true
    · simp only [onMessagesRead, h, if_true, List.map_map]
      exact List.map_congr_left fun m _ => messagesReadMsg_idem uid rid d.timestamp m
    · simp [onMessagesRead, h]
  · simp only [onMessageDelivered, List.map_map]
    exact List.map_congr_left fun m _ => messageDeliveredMsg_idem d2 m

/-- C6 counterexample.  The claim says that when a recipient-originated
mark-read event reaches a key whose delivered flag is not yet set, both
flags are set carrying the same timestamp.  On the fresh message msgAB the
messages_read handler does set both flags, but the entry it writes carries
the timestamp only on read_at; no delivered timestamp is recorded (the
object literal at part_013 line 1479 has no delivered_at field, and the
declared entry type has no such field either), so the delivered flag does
not carry the read timestamp. -/
theorem c6_counterexample_no_delivered_timestamp :
    (((onMessagesRead false "B" "A" ⟨some "B", some "t1"⟩ [msgAB]).head?.bind
        (·.delivery_status)).getD []).lookup "B" =
      some { delivered := true, read := true, read_at := some "t1",
             delivered_at := none } ∧
    ({ delivered := true, read := true, read_at := some "t1",
       delivered_at := none : DeliveryEntry }).delivered_at ≠ some "t1" := by
  decide

/-- C6 amended.  A recipient-originated mark-read event applied to a
(message, recipient) key sets the delivered flag together with the read
flag, recording the event timestamp on read_at only (no delivered timestamp
exists in the entry the handler writes); and among the two delivery-status
handlers, message_delivered never yields a read flag: any entry that reads
true after message_delivered was already present unchanged before it. -/
theorem c6_read_sets_delivered_read_timestamp_only (uid rid : String)
    (ts : Option String) (m : Message)
    (h : (m.sender_id == uid && m.receiver_id == some rid) = true) :
    ((messagesReadMsg uid rid ts m).delivery_status.getD []).lookup rid =
      some { delivered := true, read := true, read_at := ts,
             delivered_at := none } ∧
    ∀ (d : MessageDeliveredData) (m' : Message) (k : String) (e : DeliveryEntry),
      ((messageDeliveredMsg d m').delivery_status.getD []).lookup k = some e →
      e.read = true →
      (m'.delivery_status.getD []).lookup k = some e := by
  constructor
  · simp [messagesReadMsg, h, lookup_setEntry]
  · intro d m' k e hlook hread
    by_cases hid : (m'.id == d.messageId) = true
    · simp only [messageDeliveredMsg, hid, if_true, Option.getD_some,
        lookup_setEntry] at hlook
      by_cases hk : (k == d.receiver_id.getD "undefined") = true
      · rw [if_pos hk] at hlook
        have : e.read = false := by
          cases hlook
          rfl
        rw [this] at hread
        cases hread
      · rw [if_neg hk] at hlook
        exact hlook
    · simpa [messageDeliveredMsg, hid] using hlook

/-- C6 witness: the amended theorem applied at a concrete mark-read input
and, for the second conjunct, at a message_delivered event that does not
touch the message holding a read entry. -/
theorem c6_read_sets_delivered_witness :
    ((messagesReadMsg "A" "B" (some "t1") msgAB).delivery_status.getD []).lookup "B" =
      some { delivered := true, read := true, read_at := some "t1",
             delivered_at := none } ∧
    (msgABRead.delivery_status.getD []).lookup "B" =
      some { delivered := true, read := true, read_at := some "t1",
             delivered_at := none } := by
  refine ⟨(c6_read_sets_delivered_read_timestamp_only "A" "B" (some "t1") msgAB
    (by decide)).1, ?_⟩
  exact (c6_read_sets_delivered_read_timestamp_only "A" "B" (some "t1") msgAB
    (by decide)).2 ⟨"mX", some "B", some "t2"⟩ msgABRead
    "B" { delivered := true, read := true, read_at := some "t1",
          delivered_at := none } (by decide) (by decide)

/-- Appending with the id-dedupe guard preserves uniqueness of message ids. -/
theorem nodup_ids_appendIfNewId (prev : List Message) (message : Message)
    (h : (prev.map (·.id)).Nodup) :
    ((appendIfNewId prev message).map (·.id)).Nodup := by
  by_cases hany : (prev.any (fun m => m.id == message.id)) = true
  · simpa [appendIfNewId, hany] using h
  · have hnotmem : message.id ∉ prev.map (·.id) := by
      intro hmem
      obtain ⟨m, hm, he⟩ := List.mem_map.mp hmem
      have : prev.any (fun m => m.id == message.id) = true :=
        List.any_eq_true.mpr ⟨m, hm, by simp [he]⟩
      exact hany this
    simp only [appendIfNewId, hany, if_false, Bool.false_eq_true, List.map_append,
      List.map_cons, List.map_nil]
    rw [List.nodup_append]
    refine ⟨h, List.nodup_singleton _, ?_⟩
    intro a ha hb
    simp only [List.mem_singleton] at hb
    subst hb
    exact hnotmem ha

/-- Each inbound-message handler step preserves uniqueness of message ids. -/
theorem nodup_ids_applyInbound (isGroup : Bool) (chatId receiverId userId : String)
    (prev : List Message) (e : Bool × Message)
    (h : (prev.map (·.id)).Nodup) :
    ((applyInbound isGroup chatId receiverId userId prev e).map (·.id)).Nodup := by
  unfold applyInbound handleReceiveMessage handleNewMessage
  split
  · split
    · exact nodup_ids_appendIfNewId prev e.2 h
    · exact h
  · split
    · exact nodup_ids_appendIfNewId prev e.2 h
    · exact h

/-- C8 counterexample.  The claim says a message-deleted event clears the
content of the tombstoned message; the handler only sets the deleted flag
and retains the content in state (only the renderer hides it): after
deleting msgAB its stored content is still the original text, not empty. -/
theorem c8_counterexample_content_retained :
    (handleMessageDelete "m1" [msgAB]).head?.map (·.deleted) = some true ∧
    (handleMessageDelete "m1" [msgAB]).head?.map (·.content) = some "hi" ∧
    "hi" ≠ ("" : String) := by
  decide

/-- C8 amended.  A message-deleted event for message id mid sets the deleted
flag of the matching message and retains its content, all other metadata and
its position in the list (the list length is unchanged and the message keeps
its index); every other message is left unchanged; and a deleted message
renders as the fixed placeholder, not as its content. -/
theorem c8_tombstone_deletion (mid : String) (msgs : List Message) (i : Nat)
    (m : Message) (h : msgs[i]? = some m) :
    (handleMessageDelete mid msgs).length = msgs.length ∧
    (m.id = mid →
      (handleMessageDelete mid msgs)[i]? = some { m with deleted := true }) ∧
    (m.id ≠ mid → (handleMessageDelete mid msgs)[i]? = some m) ∧
    renderBubble { m with deleted := true } = .deletedPlaceholder := by
  refine ⟨by simp [handleMessageDelete], ?_, ?_, by simp [renderBubble]⟩
  · intro hm
    simp [handleMessageDelete, h, hm]
  · intro hm
    have hbe : (m.id == mid) = false := by simpa using hm
    simp [handleMessageDelete, h, hbe, hm]

/-- C8 witness: the amended theorem applied to the one-element list holding
msgAB at index zero. -/
theorem c8_tombstone_deletion_witness :
    (handleMessageDelete "m1" [msgAB])[0]? = some { msgAB with deleted := true } :=
  (c8_tombstone_deletion "m1" [msgAB] 0 msgAB rfl).2.1 rfl

/-- C10.  Per-id uniqueness of the conversation list: an inbound
receive_message or new_message event whose message id already occurs in the
list leaves the list unchanged, and consequently, after any sequence of
inbound message events starting from the empty conversation, each message id
occurs at most once. -/
theorem c10_inbound_message_ids_unique (isGroup : Bool)
    (chatId receiverId userId : String) :
    (∀ (message : Message) (prev : List Message),
        message.id ∈ prev.map (·.id) →
        handleReceiveMessage isGroup chatId receiverId userId message prev = prev ∧
        handleNewMessage isGroup chatId receiverId userId message prev = prev) ∧
    (∀ events : List (Bool × Message),
        ((events.foldl (applyInbound isGroup chatId receiverId userId) []).map
          (·.id)).Nodup) := by
  constructor
  · intro message prev hmem
    have hany : prev.any (fun m => m.id == message.id) = true := by
      obtain ⟨m, hm, he⟩ := List.mem_map.mp hmem
      exact List.any_eq_true.mpr ⟨m, hm, by simp [he]⟩
    constructor
    · simp [handleReceiveMessage, appendIfNewId, hany]
    · simp [handleNewMessage, appendIfNewId, hany]
  · have H : ∀ (events : List (Bool × Message)) (acc : List Message),
        ((acc.map (·.id)).Nodup) →
        ((events.foldl (applyInbound isGroup chatId receiverId userId) acc).map
          (·.id)).Nodup := by
      intro events
      induction events with
      | nil => intro acc hacc; simpa using hacc
      | cons e rest ih =>
        intro acc hacc
        exact ih _ (nodup_ids_applyInbound isGroup chatId receiverId userId acc e hacc)
    intro events
    exact H events [] (by simp)

/-- C10 witness: the theorem applied to a list already holding msgAB and to
a concrete one-event sequence. -/
theorem c10_inbound_message_ids_unique_witness :
    handleReceiveMessage false "c" "B" "A" msgAB [msgAB] = [msgAB] ∧
    (([((true : Bool), msgAB)].foldl (applyInbound false "c" "B" "A") []).map
      (·.id)).Nodup :=
  ⟨((c10_inbound_message_ids_unique false "c" "B" "A").1 msgAB [msgAB]
      (by decide)).1,
   (c10_inbound_message_ids_unique false "c" "B" "A").2 [(true, msgAB)]⟩

/-- C7.  Group read aggregate: for a group message of the current user (no
1:1 receiver id, truthy group chat id, own message) with raw per-recipient
map ds, the read indicator shown to the sender is the derived view read by
at least one member: it is true exactly when some entry of the raw map has
read true; moreover the aggregate is drawn from the raw map itself: whenever
the view yields an entry, that entry is a member of the raw map and has read
true, while the raw map keeps every individual per-recipient entry
addressable by lookup. -/
theorem c7_group_read_aggregate (m : Message) (ds : DStatus)
    (hds : m.delivery_status = some ds) (hrecv : m.receiver_id = none)
    (hgrp : strTruthy m.group_chat_id = true) :
    (bubbleIsRead true m = true ↔ ∃ p ∈ ds, p.2.read = true) ∧
    (∀ e, bubbleDeliveryStatus true m = some e →
      e ∈ ds.map Prod.snd ∧ e.read = true) := by
  have hr : strTruthy m.receiver_id = false := by rw [hrecv]; rfl
  have hview : bubbleDeliveryStatus true m =
      (ds.map Prod.snd).find? (fun status => status.read) := by
    simp [bubbleDeliveryStatus, hds, hr, hgrp]
  constructor
  · unfold bubbleIsRead
    rw [hview]
    cases hf : (ds.map Prod.snd).find? (fun status => status.read) with
    | none =>
      simp only [Option.map_none', Option.getD_none]
      constructor
      · intro h
        cases h
      · rintro ⟨p, hp, hread⟩
        have := List.find?_eq_none.mp hf p.2 (List.mem_map.mpr ⟨p, hp, rfl⟩)
        simp [hread] at this
    | some e =>
      simp only [Option.map_some', Option.getD_some]
      constructor
      · intro h
        obtain ⟨p, hp, hpe⟩ := List.mem_map.mp (List.mem_of_find?_eq_some hf)
        refine ⟨p, hp, ?_⟩
        rw [hpe]
        exact h
      · intro _
        simpa using List.find?_some hf
  · intro e he
    rw [hview] at he
    exact ⟨List.mem_of_find?_eq_some he, List.find?_some he⟩

/-- C7 witness: a group message of the sender whose raw map records that B
has read and C has not; the aggregate shows read while the raw map keeps the
individual flags of B and C. -/
theorem c7_group_read_aggregate_witness :
    bubbleIsRead true msgGroupBC = true ∧
    dsBC.lookup "B" = some { delivered := true, read := true,
                             read_at := some "t1", delivered_at := none } ∧
    dsBC.lookup "C" = some { delivered := true, read := false,
                             read_at := none, delivered_at := none } := by
  refine ⟨?_, by decide, by decide⟩
  exact (c7_group_read_aggregate msgGroupBC dsBC rfl rfl (by decide)).1.mpr
    ⟨("B", { delivered := true, read := true, read_at := some "t1",
             delivered_at := none }), by decide, rfl⟩

/-- C2.  Organization isolation of recipient resolution (spec-modelled):
every recipient returned by resolveRecipients belongs to the organization of
the scope, and a scope construction attempt containing any user of a
different organization is rejected with an error and an empty recipient set,
never a partial one. -/
theorem c2_org_isolation (scope : ChatScope) :
    (∀ u ∈ (resolveRecipients scope).recipients, u.orgId = scope.orgId) ∧
    ((∃ u ∈ scope.participants, u.orgId ≠ scope.orgId) →
      (resolveRecipients scope).recipients = [] ∧
      (resolveRecipients scope).error.isSome = true) := by
  by_cases h : (scope.participants.all (fun u => u.orgId == scope.orgId)) = true
  · constructor
    · intro u hu
      simp only [resolveRecipients, h, if_true] at hu
      simpa using List.all_eq_true.mp h u hu
    · rintro ⟨u, hu, hne⟩
      exact absurd (by simpa using List.all_eq_true.mp h u hu) hne
  · constructor
    · intro u hu
      simp [resolveRecipients, h] at hu
    · intro _
      simp [resolveRecipients, h]

/-- C2 witness: the theorem applied to a concrete cross-organization scope;
the resolution fails closed with an empty recipient set and an error. -/
theorem c2_org_isolation_witness :
    (resolveRecipients scopeCross).recipients = [] ∧
    (resolveRecipients scopeCross).error.isSome = true :=
  (c2_org_isolation scopeCross).2
    ⟨{ uid := "B", orgId := "O2" }, by decide, by decide⟩

/-- C3 counterexample.  With two devices of one user connected, the
disconnect handler of one device sets is_online to false although the other
connection is still live: after connect, connect, disconnect the connection
count is 1 yet the flag is false, so online iff count greater than zero
fails. -/
theorem c3_counterexample_multi_device_disconnect :
    (presenceRun [ConnEvent.connect, ConnEvent.connect,
      ConnEvent.disconnect]).count = 1 ∧
    (presenceRun [ConnEvent.connect, ConnEvent.connect,
      ConnEvent.disconnect]).online = false := by
  decide

/-- C3 amended.  The stored online flag equals whether the most recent
connection transition was a connect: the flag is never set while the
connection count is zero (online implies count greater than zero), but any
disconnect clears it even while another live connection of the same user
remains, so the flag coincides with count greater than zero only while
connections do not overlap. -/
theorem c3_presence_flag_tracks_last_transition (es : List ConnEvent) :
    ((presenceRun es).online = true → 0 < (presenceRun es).count) ∧
    (presenceRun es).online = decide (es.getLast? = some ConnEvent.connect) := by
  induction es using List.reverseRecOn with
  | nil => simp [presenceRun]
  | append_singleton l e ih =>
    cases e with
    | connect =>
      refine ⟨fun _ => ?_, ?_⟩
      · simp [presenceRun, List.foldl_append, presenceStep]
      · simp [presenceRun, List.foldl_append, presenceStep, List.getLast?_concat]
    | disconnect =>
      refine ⟨fun h => ?_, ?_⟩
      · rw [presenceRun, List.foldl_append] at h
        simp [presenceStep] at h
      · simp [presenceRun, List.foldl_append, presenceStep, List.getLast?_concat]

/-- C3 witness: the amended theorem applied to the one-connect trace. -/
theorem c3_presence_flag_witness :
    0 < (presenceRun [ConnEvent.connect]).count ∧
    (presenceRun [ConnEvent.connect]).online =
      decide ([ConnEvent.connect].getLast? = some ConnEvent.connect) :=
  ⟨(c3_presence_flag_tracks_last_transition [ConnEvent.connect]).1 (by decide),
   (c3_presence_flag_tracks_last_transition [ConnEvent.connect]).2⟩

/-- The scoped typing fold is determined by the most recent processed
signal alone: the step function discards the previous state, which is
exactly the supersede-not-stack behaviour. -/
theorem scopedTypingFold (l : List Nat) (st : TypingTimerState) (s : Nat)
    (h : l.getLast? = some s) :
    l.foldl scopedTypingStep st = { typing := true, expiry := some (s + 3000) } := by
  cases l using List.reverseRecOn with
  | nil => simp at h
  | append_singleton l' a =>
    have ha : a = s := by simpa [List.getLast?_concat] using h
    subst ha
    simp [List.foldl_append, scopedTypingStep]

/-- C4 counterexample.  The group_typing handler of part_013 does not clear
the previous timeout: with signals at 0 and 2000 the timeout of the first
signal fires at 3000 and hides the indicator, although only 1500 ms have
passed since the most recent signal; the claim says the typer stays shown
until exactly 3 seconds after the most recent signal. -/
theorem c4_counterexample_stacked_timers :
    groupTypingVisible [0, 2000] 3500 = false ∧ 3500 < 2000 + 3000 := by
  decide

/-- C4 amended.  In the scoped typing handler of part_014 each signal
resets the per-chat expiry timer to its time plus 3000 ms (the previous
timeout is cleared, timers never stack), so with no signal the indicator is
hidden, and otherwise it is shown exactly until 3000 ms after the most
recent signal, removed then without any explicit stop event; in the
group_typing handler of part_013 the timers stack, so an earlier signal can
hide the typer less than 3 seconds after the most recent signal. -/
theorem c4_scoped_typing_reset_expiry (signals : List Nat) (t : Nat) :
    ((signals.filter (fun s => decide (s ≤ t))).getLast? = none →
      scopedTypingVisible signals t = false) ∧
    (∀ s, (signals.filter (fun s => decide (s ≤ t))).getLast? = some s →
      (scopedTypingVisible signals t = true ↔ t < s + 3000)) := by
  constructor
  · intro h
    rw [List.getLast?_eq_none_iff] at h
    simp [scopedTypingVisible, h]
  · intro s h
    rw [scopedTypingVisible]
    rw [scopedTypingFold _ _ s h]
    simp

/-- C4 witness: with signals at 0 and 2000 the scoped indicator is still
shown at 3500, that is 1500 ms after the most recent signal. -/
theorem c4_scoped_typing_reset_witness :
    scopedTypingVisible [0, 2000] 3500 = true :=
  ((c4_scoped_typing_reset_expiry [0, 2000] 3500).2 2000 (by decide)).mpr
    (by decide)

/-- C9 counterexample.  The per-keystroke emitter of part_013 has no
throttle: keystrokes at 0 and 100 ms with a connected socket and nonempty
input produce emits at 0 and 100, which are less than 1000 ms apart. -/
theorem c9_counterexample_per_keystroke_no_throttle :
    perKeystrokeTypingEmits [(0, true), (100, true)] = [0, 100] ∧
    100 < 0 + 1000 := by
  decide

/-- The throttle invariant holds initially. -/
theorem throttleInv_init :
    ThrottleInv { last := 0, pending := none, emits := [] } := by
  refine ⟨rfl, ?_, by simp⟩
  intro p w h
  cases h

/-- The throttle invariant is preserved by the trailing-timeout fire. -/
theorem throttleInv_fire (st : ThrottleState) (t : Nat) (h : ThrottleInv st) :
    ThrottleInv (throttleFire st t) := by
  obtain ⟨hlast, hpend, hchain⟩ := h
  cases hp : st.pending with
  | none =>
    have he : throttleFire st t = st := by simp [throttleFire, hp]
    rw [he]
    exact ⟨hlast, hpend, hchain⟩
  | some pw =>
    obtain ⟨p, w⟩ := pw
    have hpe : p = st.last + 1000 := hpend p w hp
    by_cases hle : p ≤ t
    · cases w with
      | false =>
        have he : throttleFire st t = { st with pending := none } := by
          simp [throttleFire, hp, hle]
        rw [he]
        refine ⟨hlast, ?_, hchain⟩
        intro p' w' h'
        simp at h'
      | true =>
        have he : throttleFire st t =
            { last := p, pending := none, emits := p :: st.emits } := by
          simp [throttleFire, hp, hle]
        rw [he]
        refine ⟨rfl, ?_, ?_⟩
        · intro p' w' h'
          simp at h'
        rw [List.chain'_cons']
        refine ⟨?_, hchain⟩
        intro b hb
        rw [hpe, hlast]
        cases hemits : st.emits with
        | nil => rw [hemits] at hb; cases hb
        | cons a rest =>
          rw [hemits] at hb
          simp only [List.head?_cons, Option.mem_def, Option.some.injEq] at hb
          subst hb
          simp [hemits]
    · have he : throttleFire st t = st := by simp [throttleFire, hp, hle]
      rw [he]
      exact ⟨hlast, hpend, hchain⟩

/-- The throttle invariant is preserved by each keystroke. -/
theorem throttleInv_keystroke (st : ThrottleState) (t : Nat) (pre : Bool)
    (h : ThrottleInv st) : ThrottleInv (throttleKeystroke st t pre) := by
  obtain ⟨hlast, hpend, hchain⟩ := throttleInv_fire st t h
  unfold throttleKeystroke
  by_cases hlt : (throttleFire st t).last + 1000 < t
  · rw [if_pos hlt]
    refine ⟨rfl, ?_, ?_⟩
    · intro p' w' h'
      simp at h'
    rw [List.chain'_cons']
    refine ⟨?_, hchain⟩
    intro b hb
    cases hemits : (throttleFire st t).emits with
    | nil => rw [hemits] at hb; cases hb
    | cons a rest =>
      rw [hemits] at hb
      simp only [List.head?_cons, Option.mem_def, Option.some.injEq] at hb
      have ha : (throttleFire st t).last = a := by
        rw [hlast, hemits]
        rfl
      rw [ha] at hlt
      omega
  · rw [if_neg hlt]
    cases hp : (throttleFire st t).pending with
    | none =>
      simp only [hp]
      refine ⟨hlast, ?_, hchain⟩
      intro p' w' h'
      have h'' := Option.some.inj h'
      have := congrArg Prod.fst h''
      exact this.symm
    | some pw =>
      simp only [hp]
      exact ⟨hlast, hpend, hchain⟩

/-- C9 amended.  The debounced emitter of part_014 emits at most one typing
signal per second: in any run of the throttle machine two consecutive emits
are at least 1000 ms apart (the immediate path requires more than 1000 ms
since the last emit; the trailing timeout fires exactly 1000 ms after it);
and a first keystroke arriving more than 1000 ms after the initial
last-emit time is emitted immediately, hence within one second of the first
keystroke.  The per-keystroke emitter of part_013 has no such throttle. -/
theorem c9_throttled_typing_rate_limit :
    (∀ keystrokes : List (Nat × Bool),
      List.Chain' (fun a b => b + 1000 ≤ a) (throttleRun keystrokes).emits) ∧
    (∀ t pre, 1000 < t →
      throttleRun [(t, pre)] = { last := t, pending := none, emits := [t] }) := by
  constructor
  · intro keystrokes
    have H : ∀ (ks : List (Nat × Bool)) (st : ThrottleState), ThrottleInv st →
        ThrottleInv (ks.foldl (fun st k => throttleKeystroke st k.1 k.2) st) := by
      intro ks
      induction ks with
      | nil => intro st h; exact h
      | cons k rest ih =>
        intro st h
        exact ih _ (throttleInv_keystroke st k.1 k.2 h)
    exact (H keystrokes _ throttleInv_init).2.2
  · intro t pre ht
    have h1 : (0 : Nat) + 1000 < t := by omega
    simp [throttleRun, throttleKeystroke, throttleFire, h1]

/-- C9 witness: a single keystroke at 2000 ms is emitted immediately, and
the emit gap property holds on a concrete two-keystroke run. -/
theorem c9_throttled_typing_rate_limit_witness :
    throttleRun [(2000, true)] = { last := 2000, pending := none,
                                   emits := [2000] } ∧
    List.Chain' (fun a b => b + 1000 ≤ a)
      (throttleRun [(2000, true), (2500, true)]).emits :=
  ⟨c9_throttled_typing_rate_limit.2 2000 true (by decide),
   c9_throttled_typing_rate_limit.1 [(2000, true), (2500, true)]⟩

end FastapiNext
